import Mathlib

/-!
Shallow embedding of the IronClad KV store (repository j143/cloud-experiments,
directory src/azure/database/ironclad-db) and proofs about its specification.

Modelling conventions:
* Rust byte buffers (Vec<u8>, &[u8], &str payloads) are Lean `List Nat`
  values whose elements denote bytes; machine-integer truncation is written
  with explicit `% 256` (resp. `% 2 ^ 32`) where the source truncates.
* Rust keys and values are `&str`; we model them by their UTF-8 byte
  sequences.  `String::from_utf8` applied to the exact bytes of a valid
  string succeeds and is the identity on those bytes, so `decode_kv_page`
  returns the value bytes directly.
* Fallible Rust code (`Result`, `?`, `anyhow::bail!`, slice-index panics)
  is modelled with `Except`: a panic or an `Err` both become `.error`.
* Shared mutable state (`&self` methods mutating fields behind locks) is
  modelled by explicit state passing: each operation takes and returns the
  state record.  Operations that in Rust mutate `self` and then fail return
  the mutated state together with the error where the distinction matters
  (see `KV.set`).
* In-memory hash maps (`DashMap`, `HashMap`) are association lists with
  unique keys maintained by filtering on insert/remove; lookup is
  `assocLookup`.
-/

set_option maxRecDepth 4000

/-- Association-list lookup, used to model `DashMap` / `HashMap` lookups. -/
def assocLookup {α β : Type} [DecidableEq α] (k : α) : List (α × β) → Option β
  | [] => none
  | (k', v) :: rest => if k' = k then some v else assocLookup k rest

/-- Association-list insert modelling `HashMap::insert` / `DashMap::insert`:
the new binding replaces any previous binding of the key. -/
def assocInsert {α β : Type} [DecidableEq α] (k : α) (v : β) (l : List (α × β)) :
    List (α × β) :=
  (k, v) :: l.filter (fun p => p.1 ≠ k)

/-- Association-list removal modelling `HashMap::remove` / `DashMap::remove`. -/
def assocRemove {α β : Type} [DecidableEq α] (k : α) (l : List (α × β)) :
    List (α × β) :=
  l.filter (fun p => p.1 ≠ k)

namespace KV

/-- `u32::to_le_bytes`: the four little-endian bytes of a 32-bit value. -/
def u32le (n : Nat) : List Nat :=
  [n % 256, n / 256 % 256, n / 65536 % 256, n / 16777216 % 256]

/-- `u32::from_le_bytes`: reassemble a 32-bit value from four bytes. -/
def leToU32 (b0 b1 b2 b3 : Nat) : Nat :=
  b0 + b1 * 256 + b2 * 65536 + b3 * 16777216

/-- `slice::copy_from_slice` into `page[off .. off + b.length]`. -/
def writeSlice {α : Type} (page : List α) (off : Nat) (b : List α) : List α :=
  page.take off ++ b ++ page.drop (off + b.length)

/--
`KVStore::encode_kv_page` (kvstore.rs lines 240-268).  Layout actually
produced by the source: `key_len` as `u32` LE at offset 0, the key bytes at
offset 4, `value_len` as `u32` LE at offset `4 + key_len`, the value bytes
after it, and zero padding to 4096.  Fails when
`key.length + value.length + 8 > 4096`.
-/
def encode_kv_page (key value : List Nat) : Except String (List Nat) :=
  if key.length + value.length + 8 > 4096 then
    .error "Key-value pair too large for single page"
  else
    let page0 := List.replicate 4096 (0 : Nat)
    let page1 := writeSlice page0 0 (u32le key.length)
    let page2 := writeSlice page1 4 key
    let page3 := writeSlice page2 (4 + key.length) (u32le value.length)
    let page4 := writeSlice page3 (4 + key.length + 4) value
    .ok page4

/--
`KVStore::decode_kv_page` (kvstore.rs lines 271-294).  Reads `key_len` from
bytes 0-3, `value_len` from bytes `4+key_len .. 4+key_len+3`, and returns the
`value_len` bytes following them.  The source's out-of-bounds slice panics
are modelled as errors; the final `String::from_utf8` is the identity on the
byte sequence of a valid UTF-8 string (see module comment).
-/
def decode_kv_page (page : List Nat) : Except String (List Nat) :=
  if page.length ≠ 4096 then .error "Invalid page size"
  else
    let key_len := leToU32 (page.getD 0 0) (page.getD 1 0) (page.getD 2 0) (page.getD 3 0)
    let vOff := 4 + key_len
    if vOff + 3 ≥ page.length then .error "index out of range"
    else
      let value_len := leToU32 (page.getD vOff 0) (page.getD (vOff + 1) 0)
        (page.getD (vOff + 2) 0) (page.getD (vOff + 3) 0)
      if vOff + 4 + value_len > page.length then .error "index out of range"
      else .ok ((page.drop (vOff + 4)).take value_len)

/-- The page image produced by a successful `encode_kv_page`, in concatenated
form: length-prefixed key, length-prefixed value, zero padding. -/
def encodedPage (key value : List Nat) : List Nat :=
  u32le key.length ++ key ++ u32le value.length ++ value ++
    List.replicate (4096 - (key.length + value.length + 8)) 0

end KV

namespace WAL

/-- `WalEntry` (wal.rs lines 15-19).  Keys and values are byte sequences. -/
inductive WalEntry : Type where
  | Set : List Nat → List Nat → WalEntry
  | Delete : List Nat → WalEntry
  | Checkpoint : Nat → WalEntry
deriving DecidableEq

/-- The mutable state of a `WAL` instance (wal.rs lines 22-38): the in-memory
entry vector and the LSN counter.  The connection-string / container / blob
name fields never influence behaviour of the modelled operations. -/
structure WALState : Type where
  entries : List WalEntry
  lsn : Nat
deriving DecidableEq

/-- `WAL::new` (wal.rs lines 42-56): empty log, LSN counter 0. -/
def new : WALState := { entries := [], lsn := 0 }

/-- `WAL::append_entry` (wal.rs lines 60-75): increment the LSN counter,
push the entry, and return the new LSN. -/
def append_entry (s : WALState) (e : WalEntry) : Nat × WALState :=
  (s.lsn + 1, { entries := s.entries ++ [e], lsn := s.lsn + 1 })

/-- `WAL::clear` (wal.rs lines 92-101): drop all entries.  The LSN counter
field is not touched by the source. -/
def clear (s : WALState) : WALState :=
  { s with entries := [] }

/-- `WAL::checkpoint` (wal.rs lines 104-112): append a `Checkpoint` entry
carrying the LSN read before the append; return that LSN. -/
def checkpoint (s : WALState) : Nat × WALState :=
  (s.lsn, (append_entry s (WalEntry.Checkpoint s.lsn)).2)

/-- Run a sequence of `append_entry` calls, collecting the returned LSNs. -/
def appendAll (s : WALState) : List WalEntry → List Nat × WALState
  | [] => ([], s)
  | e :: es =>
    let r := append_entry s e
    let rest := appendAll r.2 es
    (r.1 :: rest.1, rest.2)

end WAL

namespace KV

open WAL

/--
The mutable state of a `KVStore` (kvstore.rs lines 16-29).

kvstore.rs drives its buffer pool through a synchronous page-cache
interface (`BufferPool::new()` with no disk argument at line 36,
`put_page(page_id, data)?` at line 117, `get_page(page_id) → Option<Vec<u8>>`
at line 137), which is a different draft of the pool than the stand-alone
buffer_pool.rs (whose async interface is modelled separately in namespace
`BP`).  Per that call-site contract the KV-level pool is a page cache:
`put_page` installs the image and marks it dirty, `get_page` returns the
cached image.  `pool` maps a page id to `(data, dirty)`.
-/
structure KVState : Type where
  index : List (List Nat × Nat)
  pool : List (Nat × (List Nat × Bool))
  wal : WALState
  next_page_id : Nat
deriving DecidableEq

/-- A fresh store before recovery: empty index, empty pool, fresh WAL,
`next_page_id = 0` (kvstore.rs lines 33-50). -/
def new : KVState :=
  { index := [], pool := [], wal := WAL.new, next_page_id := 0 }

/-- `KVStore::set_internal` (kvstore.rs lines 102-123): encode the page,
resolve or allocate the page id, install the page in the pool (dirty), and
insert the key into the index. -/
def set_internal (s : KVState) (key value : List Nat) : Except String KVState :=
  match encode_kv_page key value with
  | .error e => .error e
  | .ok data =>
    match assocLookup key s.index with
    | some page_id =>
      .ok { s with pool := assocInsert page_id (data, true) s.pool,
                   index := assocInsert key page_id s.index }
    | none =>
      .ok { s with pool := assocInsert s.next_page_id (data, true) s.pool,
                   index := assocInsert key s.next_page_id s.index,
                   next_page_id := s.next_page_id + 1 }

/-- `KVStore::set` (kvstore.rs lines 87-99): append the `Set` record to the
WAL first, then apply `set_internal`.  The WAL append is a mutation of the
shared state that survives a later failure, so the state is returned
alongside the result. -/
def set (s : KVState) (key value : List Nat) : Except String Unit × KVState :=
  let s1 := { s with wal := (append_entry s.wal (WalEntry.Set key value)).2 }
  match set_internal s1 key value with
  | .ok s2 => (.ok (), s2)
  | .error e => (.error e, s1)

/-- `KVStore::get` (kvstore.rs lines 126-152): index lookup, pool lookup,
decode.  Absence at either lookup yields `none`; a decode failure is an
error. -/
def get (s : KVState) (key : List Nat) : Except String (Option (List Nat)) :=
  match assocLookup key s.index with
  | none => .ok none
  | some page_id =>
    match assocLookup page_id s.pool with
    | none => .ok none
    | some (data, _) =>
      match decode_kv_page data with
      | .error e => .error e
      | .ok v => .ok (some v)

/-- `KVStore::delete_internal` (kvstore.rs lines 174-177): remove the key
from the index; report whether it was present. -/
def delete_internal (s : KVState) (key : List Nat) : Bool × KVState :=
  ((assocLookup key s.index).isSome,
   { s with index := assocRemove key s.index })

/-- `KVStore::delete` (kvstore.rs lines 155-171): append the `Delete` record
to the WAL first — unconditionally — then apply `delete_internal`. -/
def delete (s : KVState) (key : List Nat) : Bool × KVState :=
  let s1 := { s with wal := (append_entry s.wal (WalEntry.Delete key)).2 }
  delete_internal s1 key

/-- `KVStore::flush` (kvstore.rs lines 196-208): clear the dirty flag of
every dirty pooled page. -/
def flush (s : KVState) : KVState :=
  { s with pool := s.pool.map (fun p => (p.1, (p.2.1, false))) }

/-- `KVStore::checkpoint` (kvstore.rs lines 211-225): flush, then
`WAL::checkpoint`, then `WAL::clear`. -/
def checkpoint (s : KVState) : KVState :=
  let s1 := flush s
  let s2 := { s1 with wal := (WAL.checkpoint s1.wal).2 }
  { s2 with wal := WAL.clear s2.wal }

end KV

namespace BP

/-- `PAGE_SIZE` (azure_disk.rs line 16). -/
def PAGE_SIZE : Nat := 4096

/-- The error kinds of `IronCladError` (error.rs) reachable from the
modelled buffer-pool operations.  `configError` abstracts the formatted
message of `IronCladError::ConfigError` by the expected and actual sizes
it reports; `invalidPageFormat` abstracts its reason string. -/
inductive IronCladError : Type where
  | pageNotFound : Nat → IronCladError
  | invalidPageFormat : IronCladError
  | bufferPoolExhausted : IronCladError
  | configError : Nat → Nat → IronCladError
deriving DecidableEq

/-- A buffer-pool frame (buffer_pool.rs lines 16-21). -/
structure Frame : Type where
  data : List Nat
  is_dirty : Bool
  pin_count : Nat
deriving DecidableEq

/--
The PageStore behind the pool.  The source's `AzureDisk` performs network
I/O against an Azure page blob; the spec places the physical device out of
scope and specifies only its interface (read returns the `P` bytes of a
page or a benign `NotFound` / `InvalidFormat` error; write requires
`page.len == P`).  We model the store as a page map with exactly that
interface; transient network failures and retries are not modelled.
-/
structure DiskState : Type where
  pages : List (Nat × List Nat)
deriving DecidableEq

/-- `AzureDisk::read_page` as consumed by the pool: the stored bytes of the
page, `pageNotFound` when absent, `invalidPageFormat` when the stored data
is not a whole page (azure_disk.rs lines 153-157). -/
def read_page (d : DiskState) (page_id : Nat) : Except IronCladError (List Nat) :=
  match assocLookup page_id d.pages with
  | none => .error (.pageNotFound page_id)
  | some data =>
    if data.length ≠ PAGE_SIZE then .error .invalidPageFormat
    else .ok data

/-- `AzureDisk::write_page` (azure_disk.rs lines 195-239): reject data that
is not exactly one page, else store it. -/
def write_page (d : DiskState) (page_id : Nat) (data : List Nat) :
    Except IronCladError DiskState :=
  if data.length ≠ PAGE_SIZE then .error (.configError PAGE_SIZE data.length)
  else .ok { pages := assocInsert page_id data d.pages }

/-- The mutable state of a `BufferPool` (buffer_pool.rs lines 23-32):
the backing disk, the frame array, the page table (page id → frame index)
and the LRU queue (front = least recently used). -/
structure BPState : Type where
  disk : DiskState
  frames : List (Option Frame)
  page_table : List (Nat × Nat)
  lru_queue : List Nat
deriving DecidableEq

/-- `BufferPool::update_lru` (buffer_pool.rs lines 258-268): remove any
prior occurrence of the id, then push it to the back. -/
def update_lru (q : List Nat) (page_id : Nat) : List Nat :=
  q.erase page_id ++ [page_id]

/-- The empty-frame scan at the top of `BufferPool::get_free_frame`
(buffer_pool.rs lines 186-194): index of the first empty frame. -/
def find_empty_frame : List (Option Frame) → Option Nat
  | [] => none
  | none :: _ => some 0
  | some _ :: rest => (find_empty_frame rest).map (fun i => i + 1)

/--
The loop body of `BufferPool::evict_page` (buffer_pool.rs lines 201-255).
`fuel` counts the pops still allowed before the `attempts > max_attempts`
guard fires; candidates are popped from the front of the LRU queue, pinned
resident candidates are re-pushed at the back, stale candidates (not in
the page table, or an empty frame slot) are dropped, and the first
unpinned resident candidate becomes the victim: its frame data is written
back to the disk when dirty, then it is removed from the page table and
its frame index returned.
-/
def evictLoop (st : BPState) (fuel : Nat) : Except IronCladError (Nat × BPState) :=
  match st.lru_queue with
  | [] => .error .bufferPoolExhausted
  | candidate :: rest =>
    match fuel with
    | 0 => .error .bufferPoolExhausted
    | fuel' + 1 =>
      match assocLookup candidate st.page_table with
      | none => evictLoop { st with lru_queue := rest } fuel'
      | some frame_idx =>
        match st.frames.get? frame_idx with
        | some (some frame) =>
          if frame.pin_count = 0 then
            if frame.is_dirty then
              match write_page st.disk candidate frame.data with
              | .error e => .error e
              | .ok disk' =>
                .ok (frame_idx,
                  { st with disk := disk', lru_queue := rest,
                            page_table := assocRemove candidate st.page_table })
            else
              .ok (frame_idx,
                { st with lru_queue := rest,
                          page_table := assocRemove candidate st.page_table })
          else
            evictLoop { st with lru_queue := rest ++ [candidate] } fuel'
        | _ => evictLoop { st with lru_queue := rest } fuel'

/-- `BufferPool::evict_page` (buffer_pool.rs lines 201-255):
`max_attempts = lru_queue.len() + 1` pops are allowed. -/
def evict_page (st : BPState) : Except IronCladError (Nat × BPState) :=
  evictLoop st (st.lru_queue.length + 1)

/-- `BufferPool::get_free_frame` (buffer_pool.rs lines 184-198): first
empty frame, else evict. -/
def get_free_frame (st : BPState) : Except IronCladError (Nat × BPState) :=
  match find_empty_frame st.frames with
  | some idx => .ok (idx, st)
  | none => evict_page st

/-- `BufferPool::load_page_into_buffer` (buffer_pool.rs lines 88-108):
allocate a frame, install the page with `pin_count = 1` and clean, insert
into the page table, refresh the LRU. -/
def load_page_into_buffer (st : BPState) (page_id : Nat) (data : List Nat) :
    Except IronCladError BPState :=
  match get_free_frame st with
  | .error e => .error e
  | .ok (frame_idx, st1) =>
    .ok { st1 with
          frames := st1.frames.set frame_idx
            (some { data := data, is_dirty := false, pin_count := 1 }),
          page_table := assocInsert page_id frame_idx st1.page_table,
          lru_queue := update_lru st1.lru_queue page_id }

/-- The buffer-miss path of `BufferPool::get_page` (buffer_pool.rs lines
68-84): read from disk, admit on success, report absence on the two benign
error kinds, propagate anything else. -/
def get_page_miss (st : BPState) (page_id : Nat) :
    Except IronCladError (Option (List Nat) × BPState) :=
  match read_page st.disk page_id with
  | .ok data =>
    match load_page_into_buffer st page_id data with
    | .error e => .error e
    | .ok st' => .ok (some data, st')
  | .error (.pageNotFound _) => .ok (none, st)
  | .error .invalidPageFormat => .ok (none, st)
  | .error e => .error e

/-- `BufferPool::get_page` (buffer_pool.rs lines 54-85): on a hit return
the cached image and refresh the LRU; otherwise take the miss path. -/
def get_page (st : BPState) (page_id : Nat) :
    Except IronCladError (Option (List Nat) × BPState) :=
  match assocLookup page_id st.page_table with
  | some frame_idx =>
    match st.frames.get? frame_idx with
    | some (some frame) =>
      .ok (some frame.data, { st with lru_queue := update_lru st.lru_queue page_id })
    | _ => get_page_miss st page_id
  | none => get_page_miss st page_id

/-- `BufferPool::put_page` (buffer_pool.rs lines 111-151): reject data that
is not exactly one page; update an existing frame in place (marking it
dirty, keeping its pin count); otherwise allocate a frame and install the
page dirty with `pin_count = 1`. -/
def put_page (st : BPState) (page_id : Nat) (data : List Nat) :
    Except IronCladError BPState :=
  if data.length ≠ PAGE_SIZE then .error (.configError PAGE_SIZE data.length)
  else
    match assocLookup page_id st.page_table with
    | some frame_idx =>
      match st.frames.get? frame_idx with
      | some (some frame) =>
        .ok { st with
              frames := st.frames.set frame_idx
                (some { frame with data := data, is_dirty := true }),
              lru_queue := update_lru st.lru_queue page_id }
      | _ => .ok st
    | none =>
      match get_free_frame st with
      | .error e => .error e
      | .ok (frame_idx, st1) =>
        .ok { st1 with
              frames := st1.frames.set frame_idx
                (some { data := data, is_dirty := true, pin_count := 1 }),
              page_table := assocInsert page_id frame_idx st1.page_table,
              lru_queue := update_lru st1.lru_queue page_id }

end BP

namespace KV

open WAL

/-- A store holding key [107] at page 0 whose pooled page is the marker
[1] (clean), used to settle C8. -/
def delState : KVState :=
  { index := [([107], 0)], pool := [(0, ([1], false))],
    wal := WAL.new, next_page_id := 1 }

end KV

namespace BP

/-- The behaviour of a successful eviction, as established for C7:
the victim was an unpinned resident page; it is removed from the page
table; a dirty victim's data is on the disk afterwards while a clean
victim leaves the disk untouched; frames are not modified by eviction
itself; and every pinned resident candidate stays in the LRU queue
(having been re-pushed at the tail when popped). -/
def evictOutcome (st : BPState) (idx : Nat) (st' : BPState) : Prop :=
  (∃ victim frame,
      victim ∈ st.lru_queue ∧
      assocLookup victim st.page_table = some idx ∧
      st.frames.get? idx = some (some frame) ∧
      frame.pin_count = 0 ∧
      st'.page_table = assocRemove victim st.page_table ∧
      (frame.is_dirty = true → assocLookup victim st'.disk.pages = some frame.data) ∧
      (frame.is_dirty = false → st'.disk = st.disk)) ∧
  st'.frames = st.frames ∧
  (∀ q j g, q ∈ st.lru_queue → assocLookup q st.page_table = some j →
    st.frames.get? j = some (some g) → g.pin_count ≠ 0 → q ∈ st'.lru_queue)

/-- A one-frame pool holding clean page 5 with pin count 0, about to be
evicted (witness data for C7). -/
def evictWitnessState : BPState :=
  { disk := { pages := [] },
    frames := [some { data := [3], is_dirty := false, pin_count := 0 }],
    page_table := [(5, 0)],
    lru_queue := [5] }

/-- The pool of `evictWitnessState` after evicting page 5: the clean victim
needs no write-back; its page table entry is removed. -/
def evictWitnessState2 : BPState :=
  { disk := { pages := [] },
    frames := [some { data := [3], is_dirty := false, pin_count := 0 }],
    page_table := [],
    lru_queue := [] }

/-- A one-empty-frame pool whose disk holds page 0 (witness data for C4's
miss path). -/
def getPageMissState : BPState :=
  { disk := { pages := [(0, List.replicate 4096 7)] },
    frames := [none],
    page_table := [],
    lru_queue := [] }

/-- `getPageMissState` after `get_page 0` admits the page: the frame is
installed pinned (`pin_count = 1`). -/
def getPageMissState2 : BPState :=
  { disk := { pages := [(0, List.replicate 4096 7)] },
    frames := [some { data := List.replicate 4096 7, is_dirty := false, pin_count := 1 }],
    page_table := [(0, 0)],
    lru_queue := [0] }

/-- A one-frame pool with a resident pinned page 3 (witness data for C4's
hit path). -/
def getPageHitState : BPState :=
  { disk := { pages := [] },
    frames := [some { data := [9], is_dirty := false, pin_count := 2 }],
    page_table := [(3, 0)],
    lru_queue := [3] }

end BP

@[simp]
theorem assocLookup_nil {α β : Type} [DecidableEq α] (k : α) :
    assocLookup (β := β) k [] = none := rfl

@[simp]
theorem assocLookup_cons {α β : Type} [DecidableEq α] (k k' : α) (v : β) (l : List (α × β)) :
    assocLookup k ((k', v) :: l) = if k' = k then some v else assocLookup k l := rfl

@[simp]
theorem assocLookup_insert_self {α β : Type} [DecidableEq α] (k : α) (v : β)
    (l : List (α × β)) : assocLookup k (assocInsert k v l) = some v := by
  simp [assocInsert]

theorem assocLookup_filter_ne {α β : Type} [DecidableEq α] (k : α)
    (l : List (α × β)) : assocLookup k (l.filter (fun p => p.1 ≠ k)) = none := by
  induction l with
  | nil => rfl
  | cons hd tl ih =>
    by_cases h : hd.1 = k
    · simpa [List.filter_cons, h] using ih
    · cases hd with
      | mk a b => simp_all [List.filter_cons, assocLookup]

@[simp]
theorem assocLookup_remove_self {α β : Type} [DecidableEq α] (k : α)
    (l : List (α × β)) : assocLookup k (assocRemove k l) = none :=
  assocLookup_filter_ne k l

theorem assocLookup_remove_ne {α β : Type} [DecidableEq α] (k k' : α)
    (l : List (α × β)) (h : k' ≠ k) :
    assocLookup k (assocRemove k' l) = assocLookup k l := by
  induction l with
  | nil => rfl
  | cons hd tl ih =>
    cases hd with
    | mk a b =>
      by_cases ha : a = k' <;> by_cases hk : a = k <;>
        simp_all [assocRemove, List.filter_cons, assocLookup]

namespace KV

@[simp]
theorem u32le_length (n : Nat) : (u32le n).length = 4 := rfl

theorem leToU32_u32le (n : Nat) (h : n < 4294967296) :
    leToU32 (n % 256) (n / 256 % 256) (n / 65536 % 256) (n / 16777216 % 256) = n := by
  unfold leToU32
  omega

theorem writeSlice_zero {α : Type} (p b : List α) :
    writeSlice p 0 b = b ++ p.drop b.length := by
  simp [writeSlice]

theorem writeSlice_concat {α : Type} (a rest b : List α) (off : Nat)
    (hoff : off = a.length) :
    writeSlice (a ++ rest) off b = a ++ (b ++ rest.drop b.length) := by
  subst hoff
  unfold writeSlice
  rw [List.take_left, List.drop_append, List.append_assoc]

theorem drop_replicate {α : Type} (m n : Nat) (x : α) :
    (List.replicate n x).drop m = List.replicate (n - m) x := by
  induction m generalizing n with
  | zero => simp
  | succ m ih =>
    cases n with
    | zero => simp
    | succ n =>
      rw [List.replicate_succ, List.drop_succ_cons, ih n, Nat.succ_sub_succ]

theorem encode_kv_page_eq (key value : List Nat)
    (h : key.length + value.length + 8 ≤ 4096) :
    encode_kv_page key value = .ok (encodedPage key value) := by
  have e1 : writeSlice (List.replicate 4096 (0 : Nat)) 0 (u32le key.length)
      = u32le key.length ++ List.replicate 4092 0 := by
    rw [writeSlice_zero, u32le_length, drop_replicate]
  have e2 : writeSlice (u32le key.length ++ List.replicate 4092 0) 4 key
      = u32le key.length ++ (key ++ List.replicate (4092 - key.length) 0) := by
    rw [writeSlice_concat _ _ _ 4 (u32le_length key.length).symm, drop_replicate]
  have e3 : writeSlice ((u32le key.length ++ key) ++ List.replicate (4092 - key.length) 0)
      (4 + key.length) (u32le value.length)
      = (u32le key.length ++ key) ++
        (u32le value.length ++ List.replicate (4092 - key.length - 4) 0) := by
    rw [writeSlice_concat _ _ _ (4 + key.length) (by simp), u32le_length, drop_replicate]
  have e4 : writeSlice (((u32le key.length ++ key) ++ u32le value.length) ++
      List.replicate (4092 - key.length - 4) 0) (4 + key.length + 4) value
      = ((u32le key.length ++ key) ++ u32le value.length) ++
        (value ++ List.replicate (4092 - key.length - 4 - value.length) 0) := by
    rw [writeSlice_concat _ _ _ (4 + key.length + 4) (by simp; omega), drop_replicate]
  have hpad : 4092 - key.length - 4 - value.length
      = 4096 - (key.length + value.length + 8) := by omega
  simp only [encode_kv_page]
  rw [if_neg (by omega)]
  rw [e1, e2, ← List.append_assoc, e3, ← List.append_assoc, e4, ← List.append_assoc, hpad]
  unfold encodedPage
  rfl

theorem encodedPage_length (key value : List Nat)
    (h : key.length + value.length + 8 ≤ 4096) :
    (encodedPage key value).length = 4096 := by
  unfold encodedPage
  simp
  omega

theorem encode_kv_page_length (key value : List Nat) (page : List Nat)
    (h : encode_kv_page key value = .ok page) : page.length = 4096 := by
  by_cases hfit : key.length + value.length + 8 ≤ 4096
  · rw [encode_kv_page_eq key value hfit] at h
    cases h
    exact encodedPage_length key value hfit
  · unfold encode_kv_page at h
    rw [if_pos (by omega)] at h
    cases h

theorem getD_append_left {α : Type} (a b : List α) (i : Nat) (d : α)
    (h : i < a.length) : (a ++ b).getD i d = a.getD i d := by
  simp [List.getD, List.getElem?_append_left h]

theorem getD_append_right {α : Type} (a b : List α) (i : Nat) (d : α) :
    (a ++ b).getD (a.length + i) d = b.getD i d := by
  simp [List.getD, List.getElem?_append_right (Nat.le_add_right a.length i)]

theorem encodedPage_group3 (key value : List Nat) :
    encodedPage key value = ((u32le key.length ++ key) ++ u32le value.length) ++
      (value ++ List.replicate (4096 - (key.length + value.length + 8)) 0) := by
  unfold encodedPage
  rw [List.append_assoc]

theorem encodedPage_group2 (key value : List Nat) :
    encodedPage key value = (u32le key.length ++ key) ++
      (u32le value.length ++ (value ++
        List.replicate (4096 - (key.length + value.length + 8)) 0)) := by
  rw [encodedPage_group3, List.append_assoc]

theorem decode_encodedPage (key value : List Nat)
    (h : key.length + value.length + 8 ≤ 4096) :
    decode_kv_page (encodedPage key value) = .ok value := by
  have hklen : key.length ≤ 4088 := by omega
  have hplen : (encodedPage key value).length = 4096 := encodedPage_length key value h
  have hbyte : ∀ i, i < 4 → (encodedPage key value).getD i 0 = (u32le key.length).getD i 0 := by
    intro i hi
    rw [encodedPage_group2, List.append_assoc]
    exact getD_append_left _ _ i 0 (by simpa using hi)
  have hkl : leToU32 ((encodedPage key value).getD 0 0) ((encodedPage key value).getD 1 0)
      ((encodedPage key value).getD 2 0) ((encodedPage key value).getD 3 0) = key.length := by
    rw [hbyte 0 (by omega), hbyte 1 (by omega), hbyte 2 (by omega), hbyte 3 (by omega)]
    show leToU32 (key.length % 256) (key.length / 256 % 256) (key.length / 65536 % 256)
      (key.length / 16777216 % 256) = key.length
    exact leToU32_u32le key.length (by omega)
  have hvbyte : ∀ i, i < 4 →
      (encodedPage key value).getD (4 + key.length + i) 0 = (u32le value.length).getD i 0 := by
    intro i hi
    have hlen : (u32le key.length ++ key).length = 4 + key.length := by simp
    rw [encodedPage_group2, show 4 + key.length + i = (u32le key.length ++ key).length + i
      from by rw [hlen], getD_append_right]
    exact getD_append_left _ _ i 0 (by simpa using hi)
  have hvl : leToU32 ((encodedPage key value).getD (4 + key.length) 0)
      ((encodedPage key value).getD (4 + key.length + 1) 0)
      ((encodedPage key value).getD (4 + key.length + 2) 0)
      ((encodedPage key value).getD (4 + key.length + 3) 0) = value.length := by
    have h0 := hvbyte 0 (by omega)
    rw [Nat.add_zero] at h0
    rw [h0, hvbyte 1 (by omega), hvbyte 2 (by omega), hvbyte 3 (by omega)]
    show leToU32 (value.length % 256) (value.length / 256 % 256) (value.length / 65536 % 256)
      (value.length / 16777216 % 256) = value.length
    exact leToU32_u32le value.length (by omega)
  have hdrop : (encodedPage key value).drop (4 + key.length + 4) =
      value ++ List.replicate (4096 - (key.length + value.length + 8)) 0 := by
    have hlen : ((u32le key.length ++ key) ++ u32le value.length).length
        = 4 + key.length + 4 := by simp; omega
    rw [encodedPage_group3, ← hlen, List.drop_left]
  simp only [decode_kv_page]
  rw [hplen, hkl]
  rw [if_neg (by omega)]
  rw [if_neg (by omega)]
  rw [hvl]
  rw [if_neg (by omega)]
  rw [hdrop, List.take_left]

end KV

namespace WAL

theorem appendAll_lsns_gt (s : WALState) (es : List WalEntry) :
    ∀ x ∈ (appendAll s es).1, s.lsn < x := by
  induction es generalizing s with
  | nil => intro x hx; simp [appendAll] at hx
  | cons e es ih =>
    intro x hx
    simp only [appendAll, List.mem_cons] at hx
    rcases hx with h | h
    · subst h; simp [append_entry]
    · have := ih (append_entry s e).2 x h
      simp only [append_entry] at this
      omega

theorem appendAll_lsns_sorted (s : WALState) (es : List WalEntry) :
    List.Pairwise (fun a b => a < b) (appendAll s es).1 := by
  induction es generalizing s with
  | nil => simp [appendAll]
  | cons e es ih =>
    simp only [appendAll]
    exact List.Pairwise.cons
      (fun x hx => by
        have := appendAll_lsns_gt (append_entry s e).2 es x hx
        simp only [append_entry] at this ⊢
        omega)
      (ih (append_entry s e).2)

end WAL

namespace KV

open WAL

theorem set_ok_get (s : KVState) (key value : List Nat)
    (hfit : key.length + value.length + 8 ≤ 4096) :
    (set s key value).1 = .ok () ∧ get (set s key value).2 key = .ok (some value) := by
  have henc := encode_kv_page_eq key value hfit
  have hdec := decode_encodedPage key value hfit
  unfold set set_internal get
  rw [henc]
  cases h : assocLookup key s.index with
  | some pid => simp [h, hdec]
  | none => simp [h, hdec]

theorem set_too_large (s : KVState) (key value : List Nat)
    (h : key.length + value.length + 8 > 4096) :
    set s key value = (.error "Key-value pair too large for single page",
      { s with wal := (append_entry s.wal (WalEntry.Set key value)).2 }) := by
  simp [set, set_internal, encode_kv_page, h]

/-- Claim C1: for every key of at most 256 bytes whose encoded record fits
in one 4096-byte page, `set(k, v)` succeeds and an immediately following
`get(k)` on the resulting store returns `Some(v)`. -/
theorem kv_set_get_roundtrip (s : KVState) (key value : List Nat)
    (_hkey : key.length ≤ 256) (hfit : key.length + value.length + 8 ≤ 4096) :
    (set s key value).1 = .ok () ∧ get (set s key value).2 key = .ok (some value) :=
  set_ok_get s key value hfit

/-- Witness for C1 at key [104], value [119] on a fresh store. -/
theorem kv_set_get_roundtrip_witness :
    ([104] : List Nat).length ≤ 256 ∧
    ([104] : List Nat).length + ([119] : List Nat).length + 8 ≤ 4096 ∧
    ((set new [104] [119]).1 = .ok () ∧ get (set new [104] [119]).2 [104] = .ok (some [119])) :=
  ⟨by decide, by decide, kv_set_get_roundtrip new [104] [119] (by decide) (by decide)⟩

/-- Counterexample for C2: the page encoded for key [97] ("a"), value [98]
("b") starts with the little-endian key length [1, 0, 0, 0], not with the
magic constant 0x49524F4E whose little-endian bytes are [78, 79, 82, 73]. -/
theorem encode_page_layout_magic_counterexample :
    ((encode_kv_page [97] [98]).toOption.map (fun p => p.take 4)) = some [1, 0, 0, 0] ∧
    ([1, 0, 0, 0] : List Nat) ≠ [78, 79, 82, 73] := by
  constructor
  · rw [encode_kv_page_eq [97] [98] (by decide)]
    rfl
  · decide

/-- Claim C2 (amended): the page image installed for an accepted key/value
pair follows the little-endian layout actually produced by
`encode_kv_page`: `key_len` as u32 at offset 0, the key bytes at offset 4,
`value_len` as u32 at offset `4 + key_len`, the value bytes after it, and
zero padding to 4096 — with no magic, version, checksum, or LSN fields. -/
theorem encode_page_layout (key value : List Nat)
    (h : key.length + value.length + 8 ≤ 4096) :
    encode_kv_page key value = .ok (u32le key.length ++ key ++ u32le value.length ++
      value ++ List.replicate (4096 - (key.length + value.length + 8)) 0) :=
  encode_kv_page_eq key value h

/-- Witness for C2 (amended) at key [97], value [98]. -/
theorem encode_page_layout_witness :
    ([97] : List Nat).length + ([98] : List Nat).length + 8 ≤ 4096 ∧
    encode_kv_page [97] [98] = .ok (u32le ([97] : List Nat).length ++ [97] ++
      u32le ([98] : List Nat).length ++ [98] ++
      List.replicate (4096 - (([97] : List Nat).length + ([98] : List Nat).length + 8)) 0) :=
  ⟨by decide, encode_page_layout [97] [98] (by decide)⟩

/-- Counterexample for C3: deleting the absent key [107] from a fresh store
returns false, yet a Delete record is appended and the LSN advances to 1. -/
theorem delete_absent_wal_counterexample :
    (delete new [107]).1 = false ∧
    (delete new [107]).2.wal.entries = [WalEntry.Delete [107]] ∧
    (delete new [107]).2.wal.entries ≠ ([] : List WalEntry) ∧
    (delete new [107]).2.wal.lsn = 1 ∧ (1 : Nat) ≠ 0 := by
  refine ⟨rfl, rfl, by decide, rfl, by decide⟩

/-- Claim C3 (amended): deleting an absent key returns false and leaves the
index unchanged, but it is not free of WAL activity: a Delete record is
appended first, unconditionally, and the LSN counter advances by one. -/
theorem delete_absent (s : KVState) (key : List Nat)
    (h : assocLookup key s.index = none) :
    (delete s key).1 = false ∧
    (delete s key).2.wal.entries = s.wal.entries ++ [WalEntry.Delete key] ∧
    (delete s key).2.wal.lsn = s.wal.lsn + 1 ∧
    ∀ k', assocLookup k' (delete s key).2.index = assocLookup k' s.index := by
  refine ⟨?_, rfl, rfl, ?_⟩
  · simp [delete, delete_internal, h]
  · intro k'
    by_cases hk : k' = key
    · subst hk
      simp [delete, delete_internal, h]
    · simpa [delete, delete_internal] using
        assocLookup_remove_ne k' key s.index (fun he => hk he.symm)

/-- Witness for C3 (amended) at the absent key [107] on a fresh store. -/
theorem delete_absent_witness :
    assocLookup ([107] : List Nat) new.index = none ∧
    ((delete new [107]).1 = false ∧
     (delete new [107]).2.wal.entries = new.wal.entries ++ [WalEntry.Delete [107]] ∧
     (delete new [107]).2.wal.lsn = new.wal.lsn + 1 ∧
     ∀ k', assocLookup k' (delete new [107]).2.index = assocLookup k' new.index) :=
  ⟨rfl, delete_absent new [107] rfl⟩

/-- Counterexample for C8: deleting the present key [107] returns true but
leaves the pooled page exactly as it was — it is not overwritten with an
all-zero dirty page. -/
theorem delete_present_pool_counterexample :
    (delete delState [107]).1 = true ∧
    (delete delState [107]).2.pool = [(0, (([1] : List Nat), false))] ∧
    assocLookup 0 (delete delState [107]).2.pool ≠
      some (List.replicate 4096 (0 : Nat), true) := by
  refine ⟨rfl, rfl, by decide⟩

/-- Claim C8 (amended): deleting a present key appends a Delete WAL record,
removes the key from the index, and returns true — but it leaves the Pager
pool untouched (no all-zero page is installed). -/
theorem delete_present (s : KVState) (key : List Nat) (pid : Nat)
    (h : assocLookup key s.index = some pid) :
    (delete s key).1 = true ∧
    assocLookup key (delete s key).2.index = none ∧
    (delete s key).2.wal.entries = s.wal.entries ++ [WalEntry.Delete key] ∧
    (delete s key).2.pool = s.pool := by
  refine ⟨?_, ?_, rfl, rfl⟩
  · simp [delete, delete_internal, h]
  · simp [delete, delete_internal]

/-- Witness for C8 (amended) at the present key [107] of `delState`. -/
theorem delete_present_witness :
    assocLookup ([107] : List Nat) delState.index = some 0 ∧
    ((delete delState [107]).1 = true ∧
     assocLookup ([107] : List Nat) (delete delState [107]).2.index = none ∧
     (delete delState [107]).2.wal.entries = delState.wal.entries ++ [WalEntry.Delete [107]] ∧
     (delete delState [107]).2.pool = delState.pool) :=
  ⟨rfl, delete_present delState [107] 0 rfl⟩

/-- Counterexample for C5: a 257-byte key (greater than the claimed
256-byte limit) is accepted by `set` without any KeyTooLarge error. -/
theorem set_long_key_counterexample :
    (List.replicate 257 97).length = 257 ∧ 256 < 257 ∧
    (set new (List.replicate 257 97) [98]).1 = .ok () := by
  refine ⟨by simp, by decide, (set_ok_get new (List.replicate 257 97) [98] ?_).1⟩
  simp only [List.length_replicate, List.length_cons, List.length_nil]
  omega

/-- Claim C5 (amended): `set` performs no key-length validation — any key is
accepted whenever the encoded record fits (`key_len + value_len + 8 ≤ 4096`),
including keys longer than 256 bytes.  `set` does validate the total encoded
record length: when `key_len + value_len + 8 > 4096` it fails, but the Set
WAL record has already been appended before the failing validation. -/
theorem set_key_validation (s : KVState) (key value : List Nat) :
    (key.length + value.length + 8 ≤ 4096 → (set s key value).1 = .ok ()) ∧
    (key.length + value.length + 8 > 4096 →
      (set s key value).1 = .error "Key-value pair too large for single page" ∧
      (set s key value).2.wal.entries = s.wal.entries ++ [WalEntry.Set key value]) := by
  constructor
  · intro hfit
    exact (set_ok_get s key value hfit).1
  · intro hbig
    rw [set_too_large s key value hbig]
    exact ⟨rfl, rfl⟩

/-- Witness for C5 (amended): a fitting oversized key is accepted; an
overflowing record is rejected with the WAL already appended. -/
theorem set_key_validation_witness :
    ((List.replicate 257 97).length + ([98] : List Nat).length + 8 ≤ 4096 ∧
     (set new (List.replicate 257 97) [98]).1 = .ok ()) ∧
    ((List.replicate 4089 97).length + ([] : List Nat).length + 8 > 4096 ∧
     ((set new (List.replicate 4089 97) []).1 =
        .error "Key-value pair too large for single page" ∧
      (set new (List.replicate 4089 97) []).2.wal.entries =
        new.wal.entries ++ [WalEntry.Set (List.replicate 4089 97) []])) := by
  have h1 : (List.replicate 257 97).length + ([98] : List Nat).length + 8 ≤ 4096 := by
    simp only [List.length_replicate, List.length_cons, List.length_nil]; omega
  have h2 : (List.replicate 4089 97).length + ([] : List Nat).length + 8 > 4096 := by
    simp only [List.length_replicate, List.length_nil]; omega
  exact ⟨⟨h1, (set_key_validation new (List.replicate 257 97) [98]).1 h1⟩,
         ⟨h2, (set_key_validation new (List.replicate 4089 97) []).2 h2⟩⟩

end KV

namespace WAL

/-- Claim C6: the LSNs returned by successive successful `append_entry`
calls on one WAL are strictly increasing: earlier appends return strictly
smaller LSNs than later ones. -/
theorem wal_lsn_monotone (s : WALState) (es : List WalEntry) :
    List.Pairwise (fun a b => a < b) (appendAll s es).1 :=
  appendAll_lsns_sorted s es

/-- Counterexample for C9: after one append (LSN 1), `clear` empties the
log but leaves the LSN counter at 1, and the next append returns 2, not 1. -/
theorem wal_clear_lsn_counterexample :
    (clear (append_entry new (WalEntry.Set [107] [118])).2).entries = [] ∧
    (clear (append_entry new (WalEntry.Set [107] [118])).2).lsn = 1 ∧
    (1 : Nat) ≠ 0 ∧
    (append_entry (clear (append_entry new (WalEntry.Set [107] [118])).2)
      (WalEntry.Delete [107])).1 = 2 ∧
    (2 : Nat) ≠ 1 := by
  refine ⟨rfl, rfl, by decide, rfl, by decide⟩

/-- Claim C9 (amended): `WAL::clear` (and the `KVStore::checkpoint` that
invokes it after flush and `WAL::checkpoint`) leaves the log with zero
entries, but the LSN counter is not reset: `clear` leaves it unchanged, so
the next append returns the previous LSN + 1, and after a `checkpoint`
(whose Checkpoint record itself advanced the counter) the counter stands at
its pre-checkpoint value + 1. -/
theorem wal_clear_spec (s : WALState) (e : WalEntry) (ks : KV.KVState) :
    (clear s).entries = [] ∧
    (clear s).lsn = s.lsn ∧
    (append_entry (clear s) e).1 = s.lsn + 1 ∧
    (KV.checkpoint ks).wal.entries = [] ∧
    (KV.checkpoint ks).wal.lsn = ks.wal.lsn + 1 := by
  refine ⟨rfl, rfl, rfl, rfl, ?_⟩
  simp [KV.checkpoint, KV.flush, WAL.checkpoint, clear, append_entry]

end WAL

namespace BP

theorem find_empty_frame_lt (fs : List (Option Frame)) (i : Nat)
    (h : find_empty_frame fs = some i) : i < fs.length := by
  induction fs generalizing i with
  | nil => cases h
  | cons hd tl ih =>
    cases hd with
    | none =>
      cases h
      simp
    | some fr =>
      simp only [find_empty_frame] at h
      cases hfe : find_empty_frame tl with
      | none => rw [hfe] at h; cases h
      | some j =>
        rw [hfe] at h
        cases h
        have := ih j hfe
        simp only [List.length_cons]
        omega

theorem bp_get?_some_lt {α : Type} (l : List α) (n : Nat) (a : α)
    (h : l.get? n = some a) : n < l.length := by
  by_contra hn
  rw [List.get?_eq_none.mpr (Nat.le_of_not_lt hn)] at h
  cases h

theorem bp_get?_set_self {α : Type} (l : List α) (i : Nat) (a : α)
    (h : i < l.length) : (l.set i a).get? i = some a := by
  induction l generalizing i with
  | nil => simp at h
  | cons hd tl ih =>
    cases i with
    | zero => rfl
    | succ i =>
      exact ih i (by simpa using h)

theorem write_page_ok_lookup (d : DiskState) (pid : Nat) (data : List Nat)
    (d2 : DiskState) (h : write_page d pid data = .ok d2) :
    assocLookup pid d2.pages = some data := by
  unfold write_page at h
  split at h
  · cases h
  · cases h
    simp

theorem write_page_error_ne (d : DiskState) (pid : Nat) (data : List Nat)
    (e : IronCladError) (h : write_page d pid data = .error e) :
    e ≠ .configError PAGE_SIZE PAGE_SIZE := by
  unfold write_page at h
  split at h
  · rename_i hlen
    injection h with h2
    subst h2
    intro hc
    injection hc with h3 h4
    exact hlen h4
  · cases h

theorem evictLoop_nil (d : DiskState) (fs : List (Option Frame))
    (pt : List (Nat × Nat)) (fuel : Nat) :
    evictLoop { disk := d, frames := fs, page_table := pt, lru_queue := [] } fuel
      = .error .bufferPoolExhausted := by
  cases fuel <;> rfl

theorem evictLoop_cons_zero (d : DiskState) (fs : List (Option Frame))
    (pt : List (Nat × Nat)) (c : Nat) (rest : List Nat) :
    evictLoop { disk := d, frames := fs, page_table := pt, lru_queue := c :: rest } 0
      = .error .bufferPoolExhausted := rfl

theorem evictLoop_cons_succ (d : DiskState) (fs : List (Option Frame))
    (pt : List (Nat × Nat)) (c : Nat) (rest : List Nat) (fuel : Nat) :
    evictLoop { disk := d, frames := fs, page_table := pt, lru_queue := c :: rest }
        (fuel + 1) =
      match assocLookup c pt with
      | none =>
        evictLoop { disk := d, frames := fs, page_table := pt, lru_queue := rest } fuel
      | some frame_idx =>
        match fs.get? frame_idx with
        | some (some frame) =>
          if frame.pin_count = 0 then
            if frame.is_dirty then
              match write_page d c frame.data with
              | .error e => .error e
              | .ok disk2 =>
                .ok (frame_idx,
                  { disk := disk2, frames := fs,
                    page_table := assocRemove c pt, lru_queue := rest })
            else
              .ok (frame_idx,
                { disk := d, frames := fs,
                  page_table := assocRemove c pt, lru_queue := rest })
          else
            evictLoop
              { disk := d, frames := fs, page_table := pt,
                lru_queue := rest ++ [c] } fuel
        | _ =>
          evictLoop
            { disk := d, frames := fs, page_table := pt, lru_queue := rest }
            fuel := rfl

theorem evictLoop_ok_spec (fuel : Nat) : ∀ (st : BPState) (idx : Nat) (st' : BPState),
    evictLoop st fuel = .ok (idx, st') → evictOutcome st idx st' := by
  induction fuel with
  | zero =>
    intro st idx st' h
    unfold evictLoop at h
    split at h
    · cases h
    · cases h
  | succ fuel ih =>
    intro st idx st' h
    obtain ⟨d, fs, pt, lru⟩ := st
    cases lru with
    | nil =>
      rw [evictLoop_nil] at h
      cases h
    | cons c rest =>
      rw [evictLoop_cons_succ] at h
      cases hpt : assocLookup c pt with
      | none =>
        simp only [hpt] at h
        obtain ⟨⟨v, fr, hvmem, hvl, hvf, hvp, hvpt, hvd1, hvd2⟩, hfr2, hpres⟩ :=
          ih _ _ _ h
        refine ⟨⟨v, fr, List.mem_cons_of_mem _ hvmem, hvl, hvf, hvp, hvpt, hvd1, hvd2⟩,
          hfr2, ?_⟩
        intro q j g hq hlq hg hpin
        rcases List.mem_cons.mp hq with h1 | h1
        · subst h1
          rw [hpt] at hlq
          cases hlq
        · exact hpres q j g h1 hlq hg hpin
      | some fidx =>
        simp only [hpt] at h
        cases hfr : fs.get? fidx with
        | none =>
          simp only [hfr] at h
          obtain ⟨⟨v, fr, hvmem, hvl, hvf, hvp, hvpt, hvd1, hvd2⟩, hfr2, hpres⟩ :=
            ih _ _ _ h
          refine ⟨⟨v, fr, List.mem_cons_of_mem _ hvmem, hvl, hvf, hvp, hvpt, hvd1, hvd2⟩,
            hfr2, ?_⟩
          intro q j g hq hlq hg hpin
          rcases List.mem_cons.mp hq with h1 | h1
          · subst h1
            rw [hpt] at hlq
            injection hlq with h2
            subst h2
            rw [hfr] at hg
            cases hg
          · exact hpres q j g h1 hlq hg hpin
        | some ofr =>
          cases ofr with
          | none =>
            simp only [hfr] at h
            obtain ⟨⟨v, fr, hvmem, hvl, hvf, hvp, hvpt, hvd1, hvd2⟩, hfr2, hpres⟩ :=
              ih _ _ _ h
            refine ⟨⟨v, fr, List.mem_cons_of_mem _ hvmem, hvl, hvf, hvp, hvpt, hvd1,
              hvd2⟩, hfr2, ?_⟩
            intro q j g hq hlq hg hpin
            rcases List.mem_cons.mp hq with h1 | h1
            · subst h1
              rw [hpt] at hlq
              injection hlq with h2
              subst h2
              rw [hfr] at hg
              injection hg with h3
              cases h3
            · exact hpres q j g h1 hlq hg hpin
          | some frame =>
            simp only [hfr] at h
            by_cases hpin : frame.pin_count = 0
            · rw [if_pos hpin] at h
              by_cases hd2 : frame.is_dirty = true
              · rw [if_pos hd2] at h
                cases hw : write_page d c frame.data with
                | error e =>
                  simp only [hw] at h
                  cases h
                | ok disk2 =>
                  simp only [hw] at h
                  injection h with h2
                  injection h2 with hidx hst
                  subst hidx
                  subst hst
                  refine ⟨⟨c, frame, List.mem_cons_self _ _, hpt, hfr, hpin, rfl,
                    ?_, ?_⟩, rfl, ?_⟩
                  · intro _
                    exact write_page_ok_lookup d c frame.data disk2 hw
                  · intro hfd
                    rw [hd2] at hfd
                    cases hfd
                  · intro q j g hq hlq hg hpin'
                    rcases List.mem_cons.mp hq with h1 | h1
                    · subst h1
                      rw [hpt] at hlq
                      injection hlq with h2
                      subst h2
                      rw [hfr] at hg
                      injection hg with h3
                      injection h3 with h4
                      rw [← h4] at hpin'
                      exact absurd hpin hpin'
                    · exact h1
              · rw [if_neg hd2] at h
                injection h with h2
                injection h2 with hidx hst
                subst hidx
                subst hst
                refine ⟨⟨c, frame, List.mem_cons_self _ _, hpt, hfr, hpin, rfl,
                  ?_, ?_⟩, rfl, ?_⟩
                · intro hfd
                  exact absurd hfd hd2
                · intro _
                  rfl
                · intro q j g hq hlq hg hpin'
                  rcases List.mem_cons.mp hq with h1 | h1
                  · subst h1
                    rw [hpt] at hlq
                    injection hlq with h2
                    subst h2
                    rw [hfr] at hg
                    injection hg with h3
                    injection h3 with h4
                    rw [← h4] at hpin'
                    exact absurd hpin hpin'
                  · exact h1
            · rw [if_neg hpin] at h
              obtain ⟨⟨v, fr, hvmem, hvl, hvf, hvp, hvpt, hvd1, hvd2⟩, hfr2, hpres⟩ :=
                ih _ _ _ h
              refine ⟨⟨v, fr, ?_, hvl, hvf, hvp, hvpt, hvd1, hvd2⟩, hfr2, ?_⟩
              · rcases List.mem_append.mp hvmem with h1 | h1
                · exact List.mem_cons_of_mem _ h1
                · have hvc : v = c := by simpa using h1
                  subst hvc
                  exact List.mem_cons_self _ _
              · intro q j g hq hlq hg hpin'
                apply hpres q j g ?_ hlq hg hpin'
                rcases List.mem_cons.mp hq with h1 | h1
                · subst h1
                  exact List.mem_append.mpr (Or.inr (by simp))
                · exact List.mem_append.mpr (Or.inl h1)

theorem evictLoop_error_ne (fuel : Nat) : ∀ (st : BPState) (e : IronCladError),
    evictLoop st fuel = .error e → e ≠ .configError PAGE_SIZE PAGE_SIZE := by
  induction fuel with
  | zero =>
    intro st e h
    unfold evictLoop at h
    split at h
    · injection h with h2
      subst h2
      decide
    · injection h with h2
      subst h2
      decide
  | succ fuel ih =>
    intro st e h
    obtain ⟨d, fs, pt, lru⟩ := st
    cases lru with
    | nil =>
      rw [evictLoop_nil] at h
      injection h with h2
      subst h2
      decide
    | cons c rest =>
      rw [evictLoop_cons_succ] at h
      cases hpt : assocLookup c pt with
      | none =>
        simp only [hpt] at h
        exact ih _ _ h
      | some fidx =>
        simp only [hpt] at h
        cases hfr : fs.get? fidx with
        | none =>
          simp only [hfr] at h
          exact ih _ _ h
        | some ofr =>
          cases ofr with
          | none =>
            simp only [hfr] at h
            exact ih _ _ h
          | some frame =>
            simp only [hfr] at h
            by_cases hpin : frame.pin_count = 0
            · rw [if_pos hpin] at h
              by_cases hd2 : frame.is_dirty = true
              · rw [if_pos hd2] at h
                cases hw : write_page d c frame.data with
                | error e2 =>
                  simp only [hw] at h
                  injection h with h2
                  subst h2
                  exact write_page_error_ne d c frame.data e2 hw
                | ok disk2 =>
                  simp only [hw] at h
                  cases h
              · rw [if_neg hd2] at h
                cases h
            · rw [if_neg hpin] at h
              exact ih _ _ h

theorem get_free_frame_ok (st : BPState) (fi : Nat) (st1 : BPState)
    (h : get_free_frame st = .ok (fi, st1)) :
    st1.frames = st.frames ∧ fi < st.frames.length := by
  unfold get_free_frame at h
  cases hfe : find_empty_frame st.frames with
  | some i =>
    simp only [hfe] at h
    injection h with h2
    injection h2 with h3 h4
    subst h3
    subst h4
    exact ⟨rfl, find_empty_frame_lt _ _ hfe⟩
  | none =>
    simp only [hfe] at h
    unfold evict_page at h
    obtain ⟨⟨v, fr, _, _, hvf, _, _, _, _⟩, hfr2, _⟩ := evictLoop_ok_spec _ _ _ _ h
    exact ⟨hfr2, bp_get?_some_lt _ _ _ hvf⟩

theorem get_free_frame_error_ne (st : BPState) (e : IronCladError)
    (h : get_free_frame st = .error e) : e ≠ .configError PAGE_SIZE PAGE_SIZE := by
  unfold get_free_frame at h
  cases hfe : find_empty_frame st.frames with
  | some i =>
    simp only [hfe] at h
    cases h
  | none =>
    simp only [hfe] at h
    unfold evict_page at h
    exact evictLoop_error_ne _ _ _ h

/-- Claim C7: a successful `evict_page` selects a victim whose frame has
`pin_count = 0`, removes it from the page table, writes a dirty victim's
page to the PageStore (and leaves the disk untouched for a clean victim),
modifies no frame contents, and keeps every pinned resident candidate in
the LRU queue (re-pushed at the tail when popped). -/
theorem evict_page_ok_spec (st : BPState) (idx : Nat) (st' : BPState)
    (h : evict_page st = .ok (idx, st')) : evictOutcome st idx st' := by
  unfold evict_page at h
  exact evictLoop_ok_spec _ _ _ _ h

/-- Witness for C7: the eviction of clean unpinned page 5. -/
theorem evict_page_ok_spec_witness :
    evict_page evictWitnessState = .ok (0, evictWitnessState2) ∧
    evictOutcome evictWitnessState 0 evictWitnessState2 :=
  ⟨rfl, evict_page_ok_spec evictWitnessState 0 evictWitnessState2 rfl⟩

/-- Claim C4 (amended): `get_page` leaves every frame (hence every pin
count) unchanged on a cache hit, touching only the LRU queue; but on a
cache miss that admits a page, the admitted frame is installed with
`pin_count = 1` — pinned, not 0 — so it is not evictable until unpinned. -/
theorem get_page_pin (st : BPState) (pid : Nat) :
    (∀ idx frame, assocLookup pid st.page_table = some idx →
      st.frames.get? idx = some (some frame) →
      get_page st pid = .ok (some frame.data,
        { st with lru_queue := update_lru st.lru_queue pid })) ∧
    (assocLookup pid st.page_table = none →
      ∀ data st2, read_page st.disk pid = .ok data →
        load_page_into_buffer st pid data = .ok st2 →
        get_page st pid = .ok (some data, st2) ∧
        ∃ idx, assocLookup pid st2.page_table = some idx ∧
          st2.frames.get? idx =
            some (some { data := data, is_dirty := false, pin_count := 1 })) := by
  constructor
  · intro idx frame h1 h2
    unfold get_page
    simp only [h1, h2]
  · intro hmiss data st2 hread hload
    constructor
    · unfold get_page get_page_miss
      simp only [hmiss, hread, hload]
    · unfold load_page_into_buffer at hload
      cases hgff : get_free_frame st with
      | error e =>
        simp only [hgff] at hload
        cases hload
      | ok p =>
        obtain ⟨fi, st1⟩ := p
        simp only [hgff] at hload
        injection hload with h2
        subst h2
        obtain ⟨hfr_eq, hlt⟩ := get_free_frame_ok st fi st1 hgff
        refine ⟨fi, by simp, ?_⟩
        apply bp_get?_set_self
        rw [hfr_eq]
        exact hlt

theorem read_page_missState :
    read_page getPageMissState.disk 0 = .ok (List.replicate 4096 7) := by
  have hlk : assocLookup 0 getPageMissState.disk.pages
      = some (List.replicate 4096 7) := rfl
  unfold read_page
  simp only [hlk]
  rw [List.length_replicate]
  rw [if_neg (by intro hc; exact hc rfl)]

theorem load_missState :
    load_page_into_buffer getPageMissState 0 (List.replicate 4096 7) =
      .ok getPageMissState2 := rfl

theorem get_page_missState :
    get_page getPageMissState 0 =
      .ok (some (List.replicate 4096 7), getPageMissState2) := by
  unfold get_page get_page_miss
  simp only [show assocLookup 0 getPageMissState.page_table = (none : Option Nat)
    from rfl, read_page_missState, load_missState]

/-- Counterexample for C4: `get_page` on a cache miss admits the frame with
`pin_count = 1`, not 0. -/
theorem get_page_pin_counterexample :
    ((get_page getPageMissState 0).toOption.map (fun r => r.2.frames.get? 0)) =
      some (some (some
        { data := List.replicate 4096 7, is_dirty := false, pin_count := 1 })) ∧
    ({ data := List.replicate 4096 7, is_dirty := false,
        pin_count := 1 } : Frame).pin_count = 1 ∧
    (1 : Nat) ≠ 0 := by
  refine ⟨?_, rfl, by decide⟩
  rw [get_page_missState]
  rfl

/-- Witness for C4 (amended): the hit path at page 3 of `getPageHitState`
and the miss path at page 0 of `getPageMissState`. -/
theorem get_page_pin_witness :
    (assocLookup 3 getPageHitState.page_table = some 0 ∧
     getPageHitState.frames.get? 0 =
       some (some { data := [9], is_dirty := false, pin_count := 2 }) ∧
     get_page getPageHitState 3 = .ok (some [9],
       { getPageHitState with lru_queue := update_lru getPageHitState.lru_queue 3 })) ∧
    (assocLookup 0 getPageMissState.page_table = none ∧
     read_page getPageMissState.disk 0 = .ok (List.replicate 4096 7) ∧
     load_page_into_buffer getPageMissState 0 (List.replicate 4096 7) =
       .ok getPageMissState2 ∧
     (get_page getPageMissState 0 = .ok (some (List.replicate 4096 7), getPageMissState2) ∧
      ∃ idx, assocLookup 0 getPageMissState2.page_table = some idx ∧
        getPageMissState2.frames.get? idx =
          some (some
            { data := List.replicate 4096 7, is_dirty := false, pin_count := 1 }))) := by
  refine ⟨⟨rfl, rfl, ?_⟩, rfl, read_page_missState, load_missState, ?_⟩
  · exact (get_page_pin getPageHitState 3).1 0
      { data := [9], is_dirty := false, pin_count := 2 } rfl rfl
  · exact (get_page_pin getPageMissState 0).2 rfl (List.replicate 4096 7)
      getPageMissState2 read_page_missState load_missState

end BP

/-- Claim C10: every page produced by a successful `encode_kv_page` has
length exactly 4096, so the page-size rejection in `BufferPool::put_page`
(which fires only when the data length differs from `PAGE_SIZE`) can never
trigger for such a page: `put_page` never returns the size-check
`configError` for it. -/
theorem encode_page_size_put (key value page : List Nat)
    (h : KV.encode_kv_page key value = .ok page) :
    page.length = 4096 ∧ ¬(page.length ≠ BP.PAGE_SIZE) ∧
    ∀ (st : BP.BPState) (pid : Nat),
      BP.put_page st pid page ≠
        .error (.configError BP.PAGE_SIZE page.length) := by
  have hlen := KV.encode_kv_page_length key value page h
  have hne : ¬(page.length ≠ BP.PAGE_SIZE) := by
    rw [hlen]
    intro hc
    exact hc rfl
  refine ⟨hlen, hne, ?_⟩
  intro st pid hcontra
  unfold BP.put_page at hcontra
  rw [if_neg hne] at hcontra
  cases hpt : assocLookup pid st.page_table with
  | some fidx =>
    simp only [hpt] at hcontra
    cases hfr : st.frames.get? fidx with
    | none =>
      simp only [hfr] at hcontra
      cases hcontra
    | some ofr =>
      cases ofr with
      | none =>
        simp only [hfr] at hcontra
        cases hcontra
      | some frame =>
        simp only [hfr] at hcontra
        cases hcontra
  | none =>
    simp only [hpt] at hcontra
    cases hgff : BP.get_free_frame st with
    | error e =>
      simp only [hgff] at hcontra
      injection hcontra with h2
      refine BP.get_free_frame_error_ne st e hgff (h2.trans ?_)
      rw [hlen]
      rfl
    | ok p =>
      obtain ⟨fi, st1⟩ := p
      simp only [hgff] at hcontra
      cases hcontra

/-- Witness for C10 at key [97], value [98]. -/
theorem encode_page_size_put_witness :
    KV.encode_kv_page [97] [98] = .ok (KV.encodedPage [97] [98]) ∧
    ((KV.encodedPage [97] [98]).length = 4096 ∧
     ¬((KV.encodedPage [97] [98]).length ≠ BP.PAGE_SIZE) ∧
     ∀ (st : BP.BPState) (pid : Nat),
       BP.put_page st pid (KV.encodedPage [97] [98]) ≠
         .error (.configError BP.PAGE_SIZE (KV.encodedPage [97] [98]).length)) :=
  ⟨KV.encode_kv_page_eq [97] [98] (by decide),
   encode_page_size_put [97] [98] (KV.encodedPage [97] [98])
     (KV.encode_kv_page_eq [97] [98] (by decide))⟩
